import Mathlib

/-!
Shallow embedding of the inventory app `src/estoque_YV.py` (module-level
Streamlit script).  Quantities are Python floats holding exact decimal
values; we embed them as exact rationals `ℚ`.  The Google-Sheets backing
store is embedded as explicit tabular state:
* the `SALDOS` worksheet as `SaldosDf` (physical column 1 = item cell,
  physical column 2 = balance cell, plus flags saying whether the header
  row names them `item_id` / `saldo_atual`);
* the `TRANSACOES` and `CONTAGENS` worksheets as lists of row records.
`uuid.uuid4()` and `now_local_iso()` produce opaque identifier strings
that no claim depends on, so rows carry only the semantically relevant
columns.
-/

namespace Estoque

/-- Python's `str.strip().upper()` applied to an item identifier, as in
`normalize_item_id` (line 495) and the inline normalizations at lines
148, 169-170, 180, 189, 199: surrounding whitespace is dropped and
letters are upper-cased. -/
def normId (s : String) : String :=
  ⟨(((s.data.dropWhile Char.isWhitespace).reverse.dropWhile
      Char.isWhitespace).reverse).map Char.toUpper⟩

/-- The reconciliation epsilon `1e-9` from line 624. -/
def eps : ℚ := 1 / 1000000000

/-- Python's built-in `abs` on a real number. -/
def pyabs (q : ℚ) : ℚ := if q < 0 then -q else q

/-- One data row of the `SALDOS` worksheet: physical column 1 (the item
cell, a raw string) and physical column 2 (the balance cell).  The
balance cell is `some q` when `pd.to_numeric(·, errors="coerce")`
parses it as the finite number `q`, and `none` when the cell is blank
or unparseable (pandas coerces those to NaN).  Cells pandas parses to
the infinite floats (`"inf"`, `"1e400"`, …) fall outside this view;
`RawSaldoRowF` below models the full value range, and `getF_agree`
shows this `Option ℚ` view agrees with it on ±inf-free sheets. -/
structure RawSaldoRow where
  item_cell : String
  saldo_cell : Option ℚ
deriving DecidableEq, Repr

/-- The `SALDOS` worksheet.  `hasItemId` / `hasSaldo` record whether the
header row names the two physical columns `item_id` / `saldo_atual`
(`read_saldos_df` substitutes defaults when a name is absent, lines
144-147). -/
structure SaldosDf where
  hasItemId : Bool
  hasSaldo : Bool
  rows : List RawSaldoRow
deriving DecidableEq, Repr

/-- One row of the cleaned balance view returned by `read_saldos_df`. -/
structure SaldoRow where
  item_id : String
  saldo_atual : ℚ
deriving DecidableEq, Repr

/-- `read_saldos_df` (lines 136-151): a missing `item_id` column is
replaced by empty strings and a missing `saldo_atual` column by `0`;
item ids are stripped and upper-cased; balance cells are coerced with
`pd.to_numeric(errors="coerce").fillna(0.0)`, so a cell that does not
parse as a number becomes `0.0`. -/
def read_saldos_df (df : SaldosDf) : List SaldoRow :=
  df.rows.map fun r =>
    ⟨normId (if df.hasItemId then r.item_cell else ""),
     if df.hasSaldo then r.saldo_cell.getD 0 else 0⟩

/-- `get_saldo_cached` (lines 176-184): the first view row whose
normalized id equals the normalized argument, defaulting to `0.0` when
there is none (or the table is empty). -/
def get_saldo_cached (df : SaldosDf) (item_id : String) : ℚ :=
  match (read_saldos_df df).find? (fun r => r.item_id == normId item_id) with
  | some r => r.saldo_atual
  | none => 0

/-- The row scan of `set_saldo_in_saldos` (lines 197-207): walk the item
column; the first cell matching the (already normalized) id gets its
balance cell overwritten; if none matches, a fresh row holding the
normalized id and the new balance is appended after the last row. -/
def set_rows (iid : String) (new_saldo : ℚ) : List RawSaldoRow → List RawSaldoRow
  | [] => [⟨iid, some new_saldo⟩]
  | r :: rest =>
      if normId r.item_cell == iid then ⟨r.item_cell, some new_saldo⟩ :: rest
      else r :: set_rows iid new_saldo rest

/-- `set_saldo_in_saldos` (lines 187-214): normalize the id, then
update-or-create its row.  The read cache is invalidated right after
the write, so subsequent `get_saldo_cached` reads see this state. -/
def set_saldo_in_saldos (df : SaldosDf) (item_id : String) (new_saldo : ℚ) :
    SaldosDf :=
  ⟨df.hasItemId, df.hasSaldo, set_rows (normId item_id) new_saldo df.rows⟩

/-- `apply_delta` (lines 217-221): read-modify-write of the materialized
balance; returns the new balance together with the updated table. -/
def apply_delta (df : SaldosDf) (item_id : String) (delta : ℚ) : ℚ × SaldosDf :=
  let saldo := get_saldo_cached df item_id
  let novo := saldo + delta
  (novo, set_saldo_in_saldos df item_id novo)

/-- One row of the `ITENS` reference worksheet. -/
structure Item where
  item_id : String
  nome : String
  unidade : String
deriving DecidableEq, Repr

/-- The `ITENS` worksheet; `hasItemId` records whether an `item_id`
column exists (`get_item` returns `None` otherwise, line 166). -/
structure ItensDf where
  hasItemId : Bool
  rows : List Item
deriving DecidableEq, Repr

/-- `get_item` (lines 165-173): `None` when the table is unusable,
otherwise the first row whose stripped-and-upper-cased id equals the
stripped-and-upper-cased argument (the returned row carries the
normalized id, since the lookup column itself was normalized). -/
def get_item (df : ItensDf) (item_id : String) : Option Item :=
  if df.hasItemId then
    (df.rows.map fun r => ⟨normId r.item_id, r.nome, r.unidade⟩).find?
      (fun r => r.item_id == normId item_id)
  else none

/-- The action-mode radio selector (line 475): `ENTRADA` = IN,
`SAIDA` = OUT, `INVENTARIO` = physical-count reconciliation. -/
inductive Mode
  | ENTRADA
  | SAIDA
  | INVENTARIO
deriving DecidableEq, Repr

/-- One row appended to the `TRANSACOES` worksheet (lines 627-637 and
655-665).  `trans_id` and `timestamp` are opaque generated strings and
are omitted. -/
structure Transacao where
  item_id : String
  acao : String
  sinal : Int
  quantidade : ℚ
  quantidade_efetiva : ℚ
  user_id : String
  obs : String
deriving DecidableEq, Repr

/-- One row appended to the `CONTAGENS` worksheet (lines 612-620);
`contagem_id` and `timestamp` are opaque generated strings and are
omitted. -/
structure Contagem where
  item_id : String
  saldo_teorico_no_momento : ℚ
  quantidade_contada : ℚ
  diferenca : ℚ
  user_id : String
deriving DecidableEq, Repr

/-- The backing-store state the recorder touches: the `SALDOS`
worksheet plus the append-only `TRANSACOES` and `CONTAGENS` logs. -/
structure St where
  saldos : SaldosDf
  transacoes : List Transacao
  contagens : List Contagem
deriving DecidableEq, Repr

/-- A single write against the backing store, in the order the script
issues them. -/
inductive Ev
  | countAppend (c : Contagem)
  | txAppend (t : Transacao)
  | saldoWrite (item_id : String) (value : ℚ)
deriving DecidableEq, Repr

/-- Outcome of a button press: either an `st.error` followed by
`st.stop()` (no write happened), or the success toast. -/
inductive Result
  | rejected (msg : String)
  | recorded
deriving DecidableEq, Repr

/-- The `needs_confirm` flag as computed before the button (lines
575-583): it is the negative-balance checkbox for an OUT movement whose
projected balance is negative, and `True` otherwise. -/
def needs_confirm (mode : Mode) (saldo_atual qtd : ℚ) (confirmBox : Bool) :
    Bool :=
  if mode = Mode.SAIDA ∧ saldo_atual - qtd < 0 then confirmBox else true

/-- The note string of an inventory adjustment (line 636). -/
def ajusteObs (contado saldo_teorico : ℚ) : String :=
  "Ajuste inventário. Contado " ++ toString contado ++ ", teorico " ++
    toString saldo_teorico ++ "."

/-- The submit-button handler (lines 591-670), as a pure step function.
Inputs: the logged-in user, the selected mode, the already-normalized
item id from the query parameter, the entered quantity, the state of
the negative-balance checkbox, whether the optional `CONTAGENS` append
succeeds (its exception is swallowed at line 621-622), and the current
backing-store state.  Output: the surfaced result, the new state, and
the ordered list of backing-store writes. -/
def record_movement (user_id : String) (mode : Mode) (item_id : String)
    (qtd : ℚ) (confirmBox : Bool) (countWriteOk : Bool) (st : St) :
    Result × St × List Ev :=
  let saldo_atual := get_saldo_cached st.saldos item_id
  if (mode = Mode.ENTRADA ∨ mode = Mode.SAIDA) ∧ qtd ≤ 0 then
    (Result.rejected "Quantidade precisa ser maior que zero.", st, [])
  else if mode = Mode.SAIDA ∧ saldo_atual - qtd < 0 ∧
      needs_confirm mode saldo_atual qtd confirmBox = false then
    (Result.rejected "Marque a confirmação para permitir saldo negativo.",
      st, [])
  else if mode = Mode.INVENTARIO then
    let saldo_teorico := saldo_atual
    let contado := qtd
    let diferenca := contado - saldo_teorico
    let c : Contagem := ⟨item_id, saldo_teorico, contado, diferenca, user_id⟩
    let st1 : St :=
      if countWriteOk then ⟨st.saldos, st.transacoes, st.contagens ++ [c]⟩
      else st
    let evs1 : List Ev := if countWriteOk then [Ev.countAppend c] else []
    if pyabs diferenca > eps then
      let sinal_store : Int := if diferenca > 0 then 1 else -1
      let t : Transacao := ⟨item_id, "AJUSTE", sinal_store, pyabs diferenca,
        diferenca, user_id, ajusteObs contado saldo_teorico⟩
      let novoSaldos := apply_delta st1.saldos item_id diferenca
      (Result.recorded,
        ⟨novoSaldos.2, st1.transacoes ++ [t], st1.contagens⟩,
        evs1 ++ [Ev.txAppend t, Ev.saldoWrite item_id novoSaldos.1])
    else
      (Result.recorded, st1, evs1)
  else
    let acao := if mode = Mode.ENTRADA then "ENTRADA" else "SAIDA"
    let delta := if mode = Mode.ENTRADA then qtd else -qtd
    let sinal_store : Int := if mode = Mode.ENTRADA then 1 else -1
    let t : Transacao := ⟨item_id, acao, sinal_store, qtd, delta, user_id, ""⟩
    let novoSaldos := apply_delta st.saldos item_id delta
    (Result.recorded,
      ⟨novoSaldos.2, st.transacoes ++ [t], st.contagens⟩,
      [Ev.txAppend t, Ev.saldoWrite item_id novoSaldos.1])

/-- The transactions among a list of writes, in order. -/
def txsOf : List Ev → List Transacao
  | [] => []
  | Ev.txAppend t :: rest => t :: txsOf rest
  | _ :: rest => txsOf rest

/-- Scans a write list and checks that every balance write is preceded
by some transaction append; `seenTx` says whether a transaction append
occurred before the scanned suffix. -/
def saldoAfterTx (seenTx : Bool) : List Ev → Bool
  | [] => true
  | Ev.txAppend _ :: rest => saldoAfterTx true rest
  | Ev.saldoWrite _ _ :: rest => seenTx && saldoAfterTx seenTx rest
  | Ev.countAppend _ :: rest => saldoAfterTx seenTx rest

/-- Trace of one `with_retry` call: the returned value or the exception
finally raised (`none` only in the degenerate `tries = 0` case, where
the Python `raise last` raises `None`), the indices of the attempts
actually invoked, and the delays slept, in order. -/
structure RetryTrace (E A : Type) where
  result : Except (Option E) A
  calls : List Nat
  sleeps : List ℚ

/-- The retry loop of `with_retry` (lines 42-53), with the callable
modelled as the outcome of its `i`-th invocation: return the value of
the first successful attempt; after each failed attempt sleep
`base_sleep * 2 ** i`; once the attempts are exhausted raise the last
exception. -/
def retryAux (fn : Nat → Except E A) (base : ℚ) :
    Nat → Nat → Option E → RetryTrace E A
  | _, 0, last => ⟨Except.error last, [], []⟩
  | i, rem + 1, _ =>
      match fn i with
      | Except.ok a => ⟨Except.ok a, [i], []⟩
      | Except.error e =>
          let t := retryAux fn base (i + 1) rem (some e)
          ⟨t.result, i :: t.calls, base * 2 ^ i :: t.sleeps⟩

/-- `with_retry(fn, tries=3, base_sleep=0.7)` (lines 42-53). -/
def with_retry (fn : Nat → Except E A) (base : ℚ) (tries : Nat) :
    RetryTrace E A :=
  retryAux fn base 0 tries none

/-- Whether an attempt outcome is a success. -/
def exceptOk : Except E A → Bool
  | Except.ok _ => true
  | Except.error _ => false

/-- How many of the invoked attempts succeeded, i.e. how many times the
wrapped side effect (such as `append_row`, lines 154-162) actually went
through. -/
def successCalls (fn : Nat → Except E A) (t : RetryTrace E A) : Nat :=
  (t.calls.filter fun i => exceptOk (fn i)).length

/-- After `set_rows` writes an already-normalized id, the cleaned view
finds that id with exactly the written balance. -/
lemma set_rows_find (id : String) (v : ℚ) (h : normId id = id)
    (rows : List RawSaldoRow) :
    ((set_rows id v rows).map
        (fun r => (⟨normId r.item_cell, r.saldo_cell.getD 0⟩ : SaldoRow))).find?
        (fun r => r.item_id == id) = some ⟨id, v⟩ := by
  induction rows with
  | nil => simp [set_rows, h]
  | cons r rest ih =>
      by_cases hc : (normId r.item_cell == id) = true
      · simp only [set_rows]
        rw [if_pos hc]
        simp only [List.map_cons, Option.getD_some]
        rw [List.find?_cons_of_pos _ (by simpa using hc)]
        simp [eq_of_beq hc]
      · simp only [set_rows]
        rw [if_neg hc]
        simp only [List.map_cons]
        rw [List.find?_cons_of_neg _ (by simpa using hc)]
        exact ih

/-- If no row's normalized item cell matches, `set_rows` appends a fresh
row at the end. -/
lemma set_rows_no_match (id : String) (v : ℚ) (rows : List RawSaldoRow)
    (hno : ∀ r ∈ rows, normId r.item_cell ≠ id) :
    set_rows id v rows = rows ++ [⟨id, some v⟩] := by
  induction rows with
  | nil => simp [set_rows]
  | cons r rest ih =>
      have hr : (normId r.item_cell == id) = false := by
        simpa using hno r (by simp)
      simp only [set_rows, hr, Bool.false_eq_true, if_neg, not_false_eq_true,
        List.cons_append, List.cons.injEq, true_and]
      exact ih fun q hq => hno q (by simp [hq])

/-- With both columns present, a read straight after
`set_saldo_in_saldos` of an already-normalized id returns the written
balance. -/
lemma get_saldo_set_same (df : SaldosDf) (hi : df.hasItemId = true)
    (hs : df.hasSaldo = true) (id : String) (v : ℚ) (h : normId id = id) :
    get_saldo_cached (set_saldo_in_saldos df id v) id = v := by
  obtain ⟨h1, h2, rows⟩ := df
  subst hi
  subst hs
  unfold get_saldo_cached set_saldo_in_saldos read_saldos_df
  simp only [if_pos, if_true]
  rw [h, set_rows_find id v h rows]

/-- With the `item_id` column present, an id matching no row reads as
zero. -/
lemma get_saldo_no_row (df : SaldosDf) (id : String)
    (hi : df.hasItemId = true)
    (hno : ∀ r ∈ df.rows, normId r.item_cell ≠ normId id) :
    get_saldo_cached df id = 0 := by
  obtain ⟨h1, h2, rows⟩ := df
  subst hi
  unfold get_saldo_cached read_saldos_df
  have : (rows.map fun r =>
      (⟨normId (if true then r.item_cell else ""),
        if h2 then r.saldo_cell.getD 0 else 0⟩ : SaldoRow)).find?
      (fun r => r.item_id == normId id) = none := by
    rw [List.find?_eq_none]
    intro x hx
    obtain ⟨r, hr, rfl⟩ := List.mem_map.mp hx
    simpa using hno r hr
  rw [this]

/-- `apply_delta` returns the old balance plus the delta, and (for a
well-formed table and normalized id) that value is what a subsequent
read sees. -/
lemma apply_delta_spec (df : SaldosDf) (hi : df.hasItemId = true)
    (hs : df.hasSaldo = true) (id : String) (h : normId id = id) (d : ℚ) :
    (apply_delta df id d).1 = get_saldo_cached df id + d ∧
      get_saldo_cached (apply_delta df id d).2 id =
        get_saldo_cached df id + d := by
  refine ⟨rfl, ?_⟩
  unfold apply_delta
  exact get_saldo_set_same df hi hs id _ h

/-- If the scan accepts a write list starting with no transaction seen,
then every balance write in it has an earlier transaction append. -/
lemma saldoAfterTx_sound (evs : List Ev) (seen : Bool)
    (hok : saldoAfterTx seen evs = true) (i : Nat) (iid : String) (v : ℚ)
    (hget : evs.get? i = some (Ev.saldoWrite iid v)) :
    (∃ j, j < i ∧ ∃ t, evs.get? j = some (Ev.txAppend t)) ∨ seen = true := by
  induction evs generalizing seen i with
  | nil => simp at hget
  | cons e rest ih =>
      cases e with
      | txAppend t =>
          cases i with
          | zero => simp at hget
          | succ i' =>
              exact Or.inl ⟨0, Nat.succ_pos i', t, rfl⟩
      | saldoWrite iid' v' =>
          rw [saldoAfterTx, Bool.and_eq_true] at hok
          exact Or.inr hok.1
      | countAppend c =>
          cases i with
          | zero => simp at hget
          | succ i' =>
              rw [saldoAfterTx] at hok
              rcases ih seen hok i' (by simpa using hget) with ⟨j, hj, t, hg⟩ | hseen
              · exact Or.inl ⟨j + 1, Nat.succ_lt_succ hj, t, by simpa using hg⟩
              · exact Or.inr hseen

/-- Every write list `record_movement` can emit passes the
balance-write-after-transaction scan. -/
lemma record_movement_scan (user_id : String) (mode : Mode) (item_id : String)
    (qtd : ℚ) (confirmBox countWriteOk : Bool) (st : St) :
    saldoAfterTx false
      (record_movement user_id mode item_id qtd confirmBox countWriteOk st).2.2 =
      true := by
  cases mode <;> cases countWriteOk <;>
    simp only [record_movement] <;> split_ifs <;> simp [saldoAfterTx]

/-- The delay slept after the `k`-th failure counted from attempt `i`
is `base * 2 ^ (i + k)`. -/
lemma retryAux_sleeps_get (fn : Nat → Except E A) (base : ℚ)
    (rem i : Nat) (last : Option E) (k : Nat) (x : ℚ)
    (hx : (retryAux fn base i rem last).sleeps.get? k = some x) :
    x = base * 2 ^ (i + k) := by
  induction rem generalizing i last k with
  | zero => simp [retryAux] at hx
  | succ rem ih =>
      rw [retryAux] at hx
      cases hfn : fn i with
      | ok a => rw [hfn] at hx; simp at hx
      | error e =>
          rw [hfn] at hx
          simp only [List.get?] at hx
          cases k with
          | zero =>
              have : x = base * 2 ^ i := by simpa using hx.symm
              simpa [Nat.add_zero] using this
          | succ k' =>
              have hstep : i + 1 + k' = i + (k' + 1) := by omega
              have := ih (i + 1) (some e) k' (by simpa using hx)
              rw [this, hstep]

/-- Number of attempts `retryAux` invokes is at most the attempts
remaining. -/
lemma retryAux_calls_len (fn : Nat → Except E A) (base : ℚ)
    (rem i : Nat) (last : Option E) :
    (retryAux fn base i rem last).calls.length ≤ rem := by
  induction rem generalizing i last with
  | zero => simp [retryAux]
  | succ rem ih =>
      rw [retryAux]
      cases hfn : fn i with
      | ok a => simp
      | error e => simpa using Nat.succ_le_succ (ih (i + 1) (some e))

/-- C7: for every pair of item-identifier strings that agree after
trimming surrounding whitespace and upper-casing, `get_item` resolves
them to the same Item row and `get_saldo_cached` returns the same
balance — both lookups are invariant under trim-and-case normalization
of their argument. -/
theorem C7_lookup_norm_invariant (itens : ItensDf) (df : SaldosDf)
    (s1 s2 : String) (h : normId s1 = normId s2) :
    get_item itens s1 = get_item itens s2 ∧
      get_saldo_cached df s1 = get_saldo_cached df s2 := by
  unfold get_item get_saldo_cached
  rw [h]
  exact ⟨rfl, rfl⟩

/-- Concrete `ITENS` table for the C7 witness. -/
def itensW : ItensDf := ⟨true, [⟨"PR001", "Parafuso", "un"⟩]⟩

/-- Concrete `SALDOS` table for the C7 witness. -/
def saldosW : SaldosDf := ⟨true, true, [⟨"PR001", some 4⟩]⟩

/-- Witness for C7 at `"pr001"` and `" PR001 "`. -/
theorem C7_lookup_norm_invariant_witness :
    get_item itensW "pr001" = get_item itensW " PR001 " ∧
      get_saldo_cached saldosW "pr001" = get_saldo_cached saldosW " PR001 " :=
  C7_lookup_norm_invariant itensW saldosW "pr001" " PR001 " (by decide)

/-- C3: with the two `SALDOS` columns present and a normalized id,
`get_saldo_cached` returns 0 for an item with no matching balance row;
`apply_delta` returns the previous balance plus the delta and persists
that value (a subsequent read sees it); and when the item had no prior
row the write creates a fresh row holding exactly the delta. -/
theorem C3_balance_store (df : SaldosDf) (item_id : String) (d : ℚ)
    (hi : df.hasItemId = true) (hs : df.hasSaldo = true)
    (hn : normId item_id = item_id) :
    (apply_delta df item_id d).1 = get_saldo_cached df item_id + d ∧
    get_saldo_cached (apply_delta df item_id d).2 item_id =
      get_saldo_cached df item_id + d ∧
    ((∀ r ∈ df.rows, normId r.item_cell ≠ item_id) →
      get_saldo_cached df item_id = 0 ∧
      (apply_delta df item_id d).2.rows = df.rows ++ [⟨item_id, some d⟩] ∧
      (apply_delta df item_id d).1 = d) := by
  obtain ⟨h0, ht⟩ := apply_delta_spec df hi hs item_id hn d
  refine ⟨h0, ht, fun hno => ?_⟩
  have hz : get_saldo_cached df item_id = 0 :=
    get_saldo_no_row df item_id hi (by rw [hn]; exact hno)
  refine ⟨hz, ?_, by rw [h0, hz, zero_add]⟩
  simp only [apply_delta, set_saldo_in_saldos]
  rw [hn, hz, zero_add]
  exact set_rows_no_match item_id d df.rows hno

/-- Concrete `SALDOS` table for stating the C3 witness (has a row for
`"B"` and none for `"A"`). -/
def saldos3W : SaldosDf := ⟨true, true, [⟨"B", some 2⟩]⟩

/-- Witness for C3: applying delta 5 to the row-less item `"A"`. -/
theorem C3_balance_store_witness :
    (apply_delta saldos3W "A" 5).1 = get_saldo_cached saldos3W "A" + 5 ∧
    get_saldo_cached (apply_delta saldos3W "A" 5).2 "A" =
      get_saldo_cached saldos3W "A" + 5 ∧
    (get_saldo_cached saldos3W "A" = 0 ∧
      (apply_delta saldos3W "A" 5).2.rows = saldos3W.rows ++ [⟨"A", some 5⟩] ∧
      (apply_delta saldos3W "A" 5).1 = 5) := by
  obtain ⟨h1, h2, h3⟩ := C3_balance_store saldos3W "A" 5 rfl rfl (by decide)
  exact ⟨h1, h2, h3 (by decide)⟩

/-- Replacing a non-parsing balance cell by a parsed 0 does not change
the cleaned view `read_saldos_df` produces. -/
lemma read_saldos_none_eq (h1 h2 : Bool) (pre suf : List RawSaldoRow)
    (itm : String) :
    read_saldos_df ⟨h1, h2, pre ++ ⟨itm, none⟩ :: suf⟩ =
      read_saldos_df ⟨h1, h2, pre ++ ⟨itm, some 0⟩ :: suf⟩ := by
  simp [read_saldos_df]

/-- The value `pd.to_numeric(·, errors="coerce")` produces for one
`saldo_atual` cell (line 149): `nan` for a blank or unparseable cell,
`inf` / `ninf` for cells such as `"inf"`, `"-inf"` or the overflowing
literal `"1e400"` that pandas parses to the infinite floats, and
`num q` for a cell parsing to the finite value `q`. -/
inductive PdVal
  | nan
  | inf
  | ninf
  | num (q : ℚ)
deriving DecidableEq, Repr

/-- A pandas float after `fillna(0.0)`: the infinities survive, every
remaining value is finite. -/
inductive PyFloat
  | inf
  | ninf
  | fin (q : ℚ)
deriving DecidableEq, Repr

/-- `.fillna(0.0)` (line 149): NaN becomes 0.0; the infinite floats are
not NaN and pass through unchanged. -/
def fillna0 : PdVal → PyFloat
  | PdVal.nan => PyFloat.fin 0
  | PdVal.inf => PyFloat.inf
  | PdVal.ninf => PyFloat.ninf
  | PdVal.num q => PyFloat.fin q

/-- Whether a pandas float is finite (neither +inf nor −inf). -/
def PyFloat.isFinite : PyFloat → Bool
  | PyFloat.fin _ => true
  | _ => false

/-- One data row of the `SALDOS` worksheet with the balance cell kept
as the full `pd.to_numeric` result, infinities included. -/
structure RawSaldoRowF where
  item_cell : String
  saldo_cell : PdVal
deriving DecidableEq, Repr

/-- The `SALDOS` worksheet over full pandas cell values; the flags are
as in `SaldosDf`. -/
structure SaldosDfF where
  hasItemId : Bool
  hasSaldo : Bool
  rows : List RawSaldoRowF
deriving DecidableEq, Repr

/-- One row of the cleaned balance view over full pandas values. -/
structure SaldoRowF where
  item_id : String
  saldo_atual : PyFloat
deriving DecidableEq, Repr

/-- `read_saldos_df` (lines 136-151) over full pandas cell values: the
same column defaults and normalization as `read_saldos_df`, with the
balance cell going through `to_numeric` + `fillna(0.0)`, which maps NaN
to 0.0 but keeps ±inf. -/
def read_saldos_dfF (df : SaldosDfF) : List SaldoRowF :=
  df.rows.map fun r =>
    ⟨normId (if df.hasItemId then r.item_cell else ""),
     if df.hasSaldo then fillna0 r.saldo_cell else PyFloat.fin 0⟩

/-- `get_saldo_cached` (lines 176-184) over full pandas cell values. -/
def get_saldo_cachedF (df : SaldosDfF) (item_id : String) : PyFloat :=
  match (read_saldos_dfF df).find? (fun r => r.item_id == normId item_id) with
  | some r => r.saldo_atual
  | none => PyFloat.fin 0

/-- The `Option ℚ` cell view a full pandas cell projects to: faithful
exactly when the cell is NaN or finite; an infinite cell has no
`Option ℚ` counterpart. -/
def pdToOpt : PdVal → Option ℚ
  | PdVal.num q => some q
  | _ => none

/-- The `SaldosDf` view of a full-valued sheet; it agrees with the
full model precisely on sheets without ±inf cells. -/
def toQ (df : SaldosDfF) : SaldosDf :=
  ⟨df.hasItemId, df.hasSaldo,
   df.rows.map fun r => ⟨r.item_cell, pdToOpt r.saldo_cell⟩⟩

/-- Replacing a NaN balance cell by a parsed 0 does not change the
cleaned full-valued view. -/
lemma read_saldos_dfF_nan_eq (h1 h2 : Bool) (pre suf : List RawSaldoRowF)
    (itm : String) :
    read_saldos_dfF ⟨h1, h2, pre ++ ⟨itm, PdVal.nan⟩ :: suf⟩ =
      read_saldos_dfF ⟨h1, h2, pre ++ ⟨itm, PdVal.num 0⟩ :: suf⟩ := by
  simp [read_saldos_dfF, fillna0]

/-- On a sheet with no ±inf balance cell, the full-valued read agrees
with the `Option ℚ` model's read (and is in particular finite). -/
lemma getF_agree (h1 h2 : Bool) (rows : List RawSaldoRowF) (id : String)
    (hfin : ∀ r ∈ rows,
      r.saldo_cell ≠ PdVal.inf ∧ r.saldo_cell ≠ PdVal.ninf) :
    get_saldo_cachedF ⟨h1, h2, rows⟩ id =
      PyFloat.fin (get_saldo_cached (toQ ⟨h1, h2, rows⟩) id) := by
  induction rows with
  | nil => rfl
  | cons r rest ih =>
      have hr := hfin r (by simp)
      have hrest : ∀ q ∈ rest,
          q.saldo_cell ≠ PdVal.inf ∧ q.saldo_cell ≠ PdVal.ninf :=
        fun q hq => hfin q (by simp [hq])
      unfold get_saldo_cachedF get_saldo_cached read_saldos_dfF
        read_saldos_df toQ
      simp only [List.map_cons, List.map_map, Function.comp]
      by_cases hc :
          (normId (if h1 then r.item_cell else "") == normId id) = true
      · rw [List.find?_cons_of_pos _ (by simpa using hc),
          List.find?_cons_of_pos _ (by simpa using hc)]
        cases h2 with
        | false => rfl
        | true =>
            cases hcell : r.saldo_cell with
            | nan => rfl
            | inf => exact absurd hcell hr.1
            | ninf => exact absurd hcell hr.2
            | num q => rfl
      · rw [List.find?_cons_of_neg _ (by simpa using hc),
          List.find?_cons_of_neg _ (by simpa using hc)]
        have hrec := ih hrest
        unfold get_saldo_cachedF get_saldo_cached read_saldos_dfF
          read_saldos_df toQ at hrec
        simpa [List.map_map, Function.comp] using hrec

/-- A `SALDOS` sheet whose cell for item `"A"` holds a value pandas
parses to +inf, such as the strings `"inf"` or `"1e400"`. -/
def dfInfW : SaldosDfF := ⟨true, true, [⟨"A", PdVal.inf⟩]⟩

/-- Counterexample to C10 as stated: with a balance cell parsing to
+inf, `fillna(0.0)` leaves the infinity in place, so `get_saldo_cached`
returns a non-finite float — and one distinguishable from a balance of
0 — refuting "always returns a finite float". -/
theorem C10_counterexample :
    get_saldo_cachedF dfInfW "A" = PyFloat.inf ∧
    (get_saldo_cachedF dfInfW "A").isFinite = false ∧
    get_saldo_cachedF dfInfW "A" ≠
      get_saldo_cachedF ⟨true, true, [⟨"A", PdVal.num 0⟩]⟩ "A" := by
  decide

/-- C10 (amended): when reading `SALDOS`, a missing `item_id` column is
replaced by empty strings, a missing `saldo_atual` column by 0, and a
balance cell that does not parse as a number (NaN after coercion) is
coerced to 0.0, making such a corrupted cell indistinguishable from a
balance of 0 to every caller, including the read-modify-write of
`apply_delta`; but `get_saldo_cached` is only guaranteed finite on
sheets with no ±inf balance cell, where the full pandas-valued read
agrees with the `Option ℚ` model — cells parsing to ±inf survive
`fillna(0.0)` and propagate. -/
theorem C10_read_coercion_amended :
    (∀ df : SaldosDfF, df.hasItemId = false →
      ∀ r ∈ read_saldos_dfF df, r.item_id = "") ∧
    (∀ df : SaldosDfF, df.hasSaldo = false →
      ∀ r ∈ read_saldos_dfF df, r.saldo_atual = PyFloat.fin 0) ∧
    (∀ (h1 h2 : Bool) (pre suf : List RawSaldoRowF) (itm : String),
      read_saldos_dfF ⟨h1, h2, pre ++ ⟨itm, PdVal.nan⟩ :: suf⟩ =
        read_saldos_dfF ⟨h1, h2, pre ++ ⟨itm, PdVal.num 0⟩ :: suf⟩) ∧
    (∀ (h1 h2 : Bool) (pre suf : List RawSaldoRowF) (itm id : String),
      get_saldo_cachedF ⟨h1, h2, pre ++ ⟨itm, PdVal.nan⟩ :: suf⟩ id =
        get_saldo_cachedF ⟨h1, h2, pre ++ ⟨itm, PdVal.num 0⟩ :: suf⟩ id) ∧
    (∀ (h1 h2 : Bool) (pre suf : List RawSaldoRow) (itm id : String) (d : ℚ),
      (apply_delta ⟨h1, h2, pre ++ ⟨itm, none⟩ :: suf⟩ id d).1 =
        (apply_delta ⟨h1, h2, pre ++ ⟨itm, some 0⟩ :: suf⟩ id d).1) ∧
    (∀ (df : SaldosDfF) (id : String),
      (∀ r ∈ df.rows,
        r.saldo_cell ≠ PdVal.inf ∧ r.saldo_cell ≠ PdVal.ninf) →
      (get_saldo_cachedF df id).isFinite = true ∧
        get_saldo_cachedF df id =
          PyFloat.fin (get_saldo_cached (toQ df) id)) := by
  refine ⟨?_, ?_, read_saldos_dfF_nan_eq, ?_, ?_, ?_⟩
  · intro df h r hr
    rw [read_saldos_dfF] at hr
    obtain ⟨raw, _, rfl⟩ := List.mem_map.mp hr
    simp [h]
    decide
  · intro df h r hr
    rw [read_saldos_dfF] at hr
    obtain ⟨raw, _, rfl⟩ := List.mem_map.mp hr
    simp [h]
  · intro h1 h2 pre suf itm id
    unfold get_saldo_cachedF
    rw [read_saldos_dfF_nan_eq]
  · intro h1 h2 pre suf itm id d
    have hget : get_saldo_cached ⟨h1, h2, pre ++ ⟨itm, none⟩ :: suf⟩ id =
        get_saldo_cached ⟨h1, h2, pre ++ ⟨itm, some 0⟩ :: suf⟩ id := by
      unfold get_saldo_cached
      rw [read_saldos_none_eq]
    simp only [apply_delta]
    rw [hget]
  · intro df id hfin
    obtain ⟨h1, h2, rows⟩ := df
    have hagree := getF_agree h1 h2 rows id hfin
    exact ⟨by rw [hagree]; rfl, hagree⟩

/-- Witness for the amended C10 at one-row tables. -/
theorem C10_read_coercion_amended_witness :
    (∀ r ∈ read_saldos_dfF ⟨false, true, [⟨"x", PdVal.num 3⟩]⟩,
      r.item_id = "") ∧
    (∀ r ∈ read_saldos_dfF ⟨true, false, [⟨"A", PdVal.num 3⟩]⟩,
      r.saldo_atual = PyFloat.fin 0) ∧
    read_saldos_dfF ⟨true, true, [⟨"A", PdVal.nan⟩]⟩ =
      read_saldos_dfF ⟨true, true, [⟨"A", PdVal.num 0⟩]⟩ ∧
    get_saldo_cachedF ⟨true, true, [⟨"A", PdVal.nan⟩]⟩ "A" =
      get_saldo_cachedF ⟨true, true, [⟨"A", PdVal.num 0⟩]⟩ "A" ∧
    (apply_delta ⟨true, true, [⟨"A", none⟩]⟩ "A" 5).1 =
      (apply_delta ⟨true, true, [⟨"A", some 0⟩]⟩ "A" 5).1 ∧
    ((get_saldo_cachedF ⟨true, true, [⟨"A", PdVal.num 3⟩]⟩ "A").isFinite =
        true ∧
      get_saldo_cachedF ⟨true, true, [⟨"A", PdVal.num 3⟩]⟩ "A" =
        PyFloat.fin
          (get_saldo_cached (toQ ⟨true, true, [⟨"A", PdVal.num 3⟩]⟩) "A")) :=
  ⟨fun r hr => C10_read_coercion_amended.1 _ rfl r hr,
   fun r hr => C10_read_coercion_amended.2.1 _ rfl r hr,
   C10_read_coercion_amended.2.2.1 true true [] [] "A",
   C10_read_coercion_amended.2.2.2.1 true true [] [] "A" "A",
   C10_read_coercion_amended.2.2.2.2.1 true true [] [] "A" "A" 5,
   C10_read_coercion_amended.2.2.2.2.2 ⟨true, true, [⟨"A", PdVal.num 3⟩]⟩
     "A" (by decide)⟩

/-- C9: in INVENTARIO mode a failure of the `CONTAGENS` append is
caught and ignored: the submission still reports success, and the
resulting `SALDOS` state, `TRANSACOES` log and appended transactions
are identical to those of a run whose Count write succeeded; only the
Count row itself is lost. -/
theorem C9_count_failure_swallowed (user item_id : String) (qtd : ℚ)
    (b : Bool) (st : St) :
    (record_movement user Mode.INVENTARIO item_id qtd b false st).1 =
      Result.recorded ∧
    (record_movement user Mode.INVENTARIO item_id qtd b true st).1 =
      Result.recorded ∧
    (record_movement user Mode.INVENTARIO item_id qtd b false st).2.1.saldos =
      (record_movement user Mode.INVENTARIO item_id qtd b true st).2.1.saldos ∧
    (record_movement user Mode.INVENTARIO item_id qtd b false st).2.1.transacoes =
      (record_movement user Mode.INVENTARIO item_id qtd b true st).2.1.transacoes ∧
    txsOf (record_movement user Mode.INVENTARIO item_id qtd b false st).2.2 =
      txsOf (record_movement user Mode.INVENTARIO item_id qtd b true st).2.2 ∧
    (record_movement user Mode.INVENTARIO item_id qtd b false st).2.1.contagens =
      st.contagens := by
  by_cases hd :
      eps < pyabs (qtd - get_saldo_cached st.saldos item_id) <;>
    simp [record_movement, hd, txsOf]

/-- C8: in every recorded movement the transaction append precedes the
materialized balance write: any `saldoWrite` in the emitted write list
has a `txAppend` at a strictly earlier position. -/
theorem C8_tx_before_balance (user : String) (mode : Mode) (item_id : String)
    (qtd : ℚ) (b ok : Bool) (st : St) (i : Nat) (iid : String) (v : ℚ)
    (hget : (record_movement user mode item_id qtd b ok st).2.2.get? i =
      some (Ev.saldoWrite iid v)) :
    ∃ j, j < i ∧ ∃ t,
      (record_movement user mode item_id qtd b ok st).2.2.get? j =
        some (Ev.txAppend t) := by
  rcases saldoAfterTx_sound _ false
      (record_movement_scan user mode item_id qtd b ok st) i iid v hget with
    h | h
  · exact h
  · simp at h

/-- Empty starting state for the C8 witness. -/
def st8W : St := ⟨⟨true, true, []⟩, [], []⟩

/-- The transaction the C8 witness movement appends. -/
def tx8W : Transacao := ⟨"A", "ENTRADA", 1, 3, 3, "u", ""⟩

/-- Witness for C8: an IN movement of 3 emits the transaction append at
position 0 and the balance write at position 1. -/
theorem C8_tx_before_balance_witness :
    (record_movement "u" Mode.ENTRADA "A" 3 true true st8W).2.2.get? 1 =
      some (Ev.saldoWrite "A" 3) ∧
    ∃ j, j < 1 ∧ ∃ t,
      (record_movement "u" Mode.ENTRADA "A" 3 true true st8W).2.2.get? j =
        some (Ev.txAppend t) := by
  have h1 : ¬ ((3 : ℚ) ≤ 0) := by norm_num
  have hget : (record_movement "u" Mode.ENTRADA "A" 3 true true st8W).2.2.get? 1 =
      some (Ev.saldoWrite "A" 3) := by
    simp [record_movement, get_saldo_cached, read_saldos_df, st8W,
      apply_delta, set_saldo_in_saldos, set_rows, needs_confirm, h1]
  exact ⟨hget, C8_tx_before_balance "u" Mode.ENTRADA "A" 3 true true st8W 1 "A" 3 hget⟩

/-- When the reconciliation difference clears the epsilon, the
INVENTARIO submission appends the adjustment to the transaction log and
leaves the materialized balance at the counted quantity. -/
lemma inventario_adjust_state (user item_id : String) (contado : ℚ)
    (b ok : Bool) (st : St) (hi : st.saldos.hasItemId = true)
    (hs : st.saldos.hasSaldo = true) (hn : normId item_id = item_id)
    (hgt : eps < pyabs (contado - get_saldo_cached st.saldos item_id)) :
    (record_movement user Mode.INVENTARIO item_id contado b ok st).2.1.transacoes =
      st.transacoes ++
        [⟨item_id, "AJUSTE",
          if 0 < contado - get_saldo_cached st.saldos item_id then 1 else -1,
          pyabs (contado - get_saldo_cached st.saldos item_id),
          contado - get_saldo_cached st.saldos item_id, user,
          ajusteObs contado (get_saldo_cached st.saldos item_id)⟩] ∧
    get_saldo_cached
      (record_movement user Mode.INVENTARIO item_id contado b ok st).2.1.saldos
      item_id = contado := by
  have key := (apply_delta_spec st.saldos hi hs item_id hn
    (contado - get_saldo_cached st.saldos item_id)).2
  refine ⟨?_, ?_⟩
  · cases ok <;> simp [record_movement, hgt]
  · cases ok <;>
      · simp only [record_movement]
        simp [hgt]
        rw [key]
        ring

/-- C1: an INVENTARIO submission with counted quantity `contado`
against theoretical balance `teorico` computes the difference
`d = contado − teorico`; when `|d| ≤ 1e-9` no ADJUST transaction is
appended (the Count row is still written when its append succeeds);
otherwise exactly one ADJUST transaction is appended with stored sign
`sign d`, entered quantity `|d|`, effective quantity `d`, and the
balance afterwards equals the counted quantity. -/
theorem C1_inventario_reconciliation (user item_id : String)
    (contado teorico d : ℚ) (b ok : Bool) (st : St)
    (hi : st.saldos.hasItemId = true) (hs : st.saldos.hasSaldo = true)
    (hn : normId item_id = item_id)
    (hteo : get_saldo_cached st.saldos item_id = teorico)
    (hd : d = contado - teorico) :
    (pyabs d ≤ eps →
      (record_movement user Mode.INVENTARIO item_id contado b ok st).2.1.transacoes =
        st.transacoes ∧
      txsOf (record_movement user Mode.INVENTARIO item_id contado b ok st).2.2 =
        [] ∧
      (ok = true →
        (record_movement user Mode.INVENTARIO item_id contado b ok st).2.1.contagens =
          st.contagens ++ [⟨item_id, teorico, contado, d, user⟩])) ∧
    (eps < pyabs d →
      (record_movement user Mode.INVENTARIO item_id contado b ok st).2.1.transacoes =
        st.transacoes ++
          [⟨item_id, "AJUSTE", if 0 < d then 1 else -1, pyabs d, d, user,
            ajusteObs contado teorico⟩] ∧
      get_saldo_cached
        (record_movement user Mode.INVENTARIO item_id contado b ok st).2.1.saldos
        item_id = contado) := by
  subst hd
  subst hteo
  constructor
  · intro hle
    have hng : ¬ (eps <
        pyabs (contado - get_saldo_cached st.saldos item_id)) :=
      not_lt.mpr hle
    cases ok <;> simp [record_movement, hng, txsOf]
  · intro hgt
    exact inventario_adjust_state user item_id contado b ok st hi hs hn hgt

/-- Starting state for the C1 witness: item `"A"` carries balance 12. -/
def st1W : St := ⟨⟨true, true, [⟨"A", some 12⟩]⟩, [], []⟩

/-- Witness for C1 at counted 5 against theoretical 12: one ADJUST with
stored sign −1, quantity 7, effective quantity −7, final balance 5. -/
theorem C1_inventario_reconciliation_witness :
    eps < pyabs (-7 : ℚ) ∧
    (record_movement "u" Mode.INVENTARIO "A" 5 true true st1W).2.1.transacoes =
      [⟨"A", "AJUSTE", -1, 7, -7, "u", ajusteObs 5 12⟩] ∧
    get_saldo_cached
      (record_movement "u" Mode.INVENTARIO "A" 5 true true st1W).2.1.saldos
      "A" = 5 := by
  have hgt : eps < pyabs (-7 : ℚ) := by norm_num [pyabs, eps]
  have h := (C1_inventario_reconciliation "u" "A" 5 12 (-7) true true st1W
    rfl rfl (by decide) (by decide) (by norm_num)).2 hgt
  refine ⟨hgt, ?_, h.2⟩
  rw [h.1]
  norm_num [pyabs, st1W]

/-- When the reconciliation difference clears the epsilon, the
INVENTARIO submission appends exactly the adjustment transaction. -/
lemma inventario_adjust_txs (user item_id : String) (qtd : ℚ) (b ok : Bool)
    (st : St)
    (hd : eps < pyabs (qtd - get_saldo_cached st.saldos item_id)) :
    txsOf (record_movement user Mode.INVENTARIO item_id qtd b ok st).2.2 =
      [⟨item_id, "AJUSTE",
        if 0 < qtd - get_saldo_cached st.saldos item_id then 1 else -1,
        pyabs (qtd - get_saldo_cached st.saldos item_id),
        qtd - get_saldo_cached st.saldos item_id, user,
        ajusteObs qtd (get_saldo_cached st.saldos item_id)⟩] := by
  cases ok <;> simp [record_movement, hd, txsOf]

/-- C2: every transaction a recorded movement appends has entered
quantity > 0 and effective quantity = stored sign × entered quantity,
with IN rows carrying (+1, +q), OUT rows (−1, −q) and AJUSTE rows the
sign of the reconciliation difference — so the sign of the effective
quantity always matches the stored sign. -/
theorem C2_sign_rule (user : String) (mode : Mode) (item_id : String)
    (qtd : ℚ) (b ok : Bool) (st : St) :
    ∀ t ∈ txsOf (record_movement user mode item_id qtd b ok st).2.2,
      t.quantidade_efetiva = (t.sinal : ℚ) * t.quantidade ∧
      0 < t.quantidade ∧
      (t.sinal = 1 ∨ t.sinal = -1) ∧
      (0 < t.quantidade_efetiva ↔ 0 < t.sinal) ∧
      (t.quantidade_efetiva < 0 ↔ t.sinal < 0) ∧
      (mode = Mode.ENTRADA → t.acao = "ENTRADA" ∧ t.sinal = 1 ∧
        t.quantidade = qtd ∧ t.quantidade_efetiva = qtd) ∧
      (mode = Mode.SAIDA → t.acao = "SAIDA" ∧ t.sinal = -1 ∧
        t.quantidade = qtd ∧ t.quantidade_efetiva = -qtd) ∧
      (mode = Mode.INVENTARIO → t.acao = "AJUSTE") := by
  intro t ht
  cases mode with
  | ENTRADA =>
      by_cases hq : qtd ≤ 0
      · simp [record_movement, hq, txsOf] at ht
      · simp [record_movement, hq, txsOf] at ht
        subst ht
        have hq' : 0 < qtd := not_le.mp hq
        exact ⟨by simp, hq', Or.inl rfl,
          iff_of_true hq' Int.one_pos,
          iff_of_false (lt_asymm hq') (by norm_num),
          fun _ => ⟨rfl, rfl, rfl, rfl⟩,
          fun h => by simp at h,
          fun h => by simp at h⟩
  | SAIDA =>
      by_cases hq : qtd ≤ 0
      · simp [record_movement, hq, txsOf] at ht
      · by_cases hg : get_saldo_cached st.saldos item_id < qtd ∧
            needs_confirm Mode.SAIDA (get_saldo_cached st.saldos item_id)
              qtd b = false
        · simp [record_movement, hq, hg, txsOf] at ht
        · simp [record_movement, hq, hg, txsOf] at ht
          subst ht
          have hq' : 0 < qtd := not_le.mp hq
          refine ⟨by push_cast; ring, hq', Or.inr rfl, ?_, ?_,
            fun h => by simp at h,
            fun _ => ⟨rfl, rfl, rfl, rfl⟩,
            fun h => by simp at h⟩
          · exact iff_of_false (by simpa using lt_asymm hq') (by norm_num)
          · exact iff_of_true (by simpa using hq') (by norm_num)
  | INVENTARIO =>
      by_cases hd : eps < pyabs (qtd - get_saldo_cached st.saldos item_id)
      · rw [inventario_adjust_txs user item_id qtd b ok st hd] at ht
        simp only [List.mem_singleton] at ht
        subst ht
        have heps : (0 : ℚ) < eps := by norm_num [eps]
        have hdne : qtd - get_saldo_cached st.saldos item_id ≠ 0 := by
          intro h0
          rw [h0] at hd
          norm_num [pyabs, eps] at hd
        by_cases hdp : 0 < qtd - get_saldo_cached st.saldos item_id
        · have hsin : (if 0 < qtd - get_saldo_cached st.saldos item_id then
              (1 : Int) else -1) = 1 := if_pos hdp
          have habs : pyabs (qtd - get_saldo_cached st.saldos item_id) =
              qtd - get_saldo_cached st.saldos item_id := by
            simp only [pyabs]
            rw [if_neg (not_lt.mpr (le_of_lt hdp))]
          refine ⟨?_, ?_, ?_, ?_, ?_,
            fun h => by simp at h, fun h => by simp at h, fun _ => rfl⟩
          · simp only [hsin, habs, Int.cast_one, one_mul]
          · simpa [habs] using hdp
          · exact Or.inl hsin
          · simp only [hsin]
            exact iff_of_true hdp Int.one_pos
          · simp only [hsin]
            exact iff_of_false (lt_asymm hdp) (by norm_num)
        · have hdn : qtd - get_saldo_cached st.saldos item_id < 0 :=
            lt_of_le_of_ne (not_lt.mp hdp) hdne
          have hsin : (if 0 < qtd - get_saldo_cached st.saldos item_id then
              (1 : Int) else -1) = -1 := if_neg hdp
          have habs : pyabs (qtd - get_saldo_cached st.saldos item_id) =
              -(qtd - get_saldo_cached st.saldos item_id) := by
            simp only [pyabs]
            rw [if_pos hdn]
          refine ⟨?_, ?_, ?_, ?_, ?_,
            fun h => by simp at h, fun h => by simp at h, fun _ => rfl⟩
          · simp only [hsin, habs]
            push_cast
            ring
          · simpa [habs] using neg_pos.mpr hdn
          · exact Or.inr hsin
          · simp only [hsin]
            exact iff_of_false (lt_asymm hdn) (by norm_num)
          · simp only [hsin]
            exact iff_of_true hdn (by norm_num)
      · cases ok <;> simp [record_movement, hd, txsOf] at ht

/-- Empty starting state for the C2 witness. -/
def st2W : St := ⟨⟨true, true, []⟩, [], []⟩

/-- The transaction the C2 witness movement appends. -/
def tx2W : Transacao := ⟨"A", "ENTRADA", 1, 3, 3, "u", ""⟩

/-- Witness for C2 at an IN movement of 3. -/
theorem C2_sign_rule_witness :
    tx2W ∈ txsOf (record_movement "u" Mode.ENTRADA "A" 3 true true st2W).2.2 ∧
    (tx2W.quantidade_efetiva = (tx2W.sinal : ℚ) * tx2W.quantidade ∧
      0 < tx2W.quantidade ∧
      (tx2W.sinal = 1 ∨ tx2W.sinal = -1) ∧
      (0 < tx2W.quantidade_efetiva ↔ 0 < tx2W.sinal) ∧
      (tx2W.quantidade_efetiva < 0 ↔ tx2W.sinal < 0) ∧
      (Mode.ENTRADA = Mode.ENTRADA → tx2W.acao = "ENTRADA" ∧ tx2W.sinal = 1 ∧
        tx2W.quantidade = 3 ∧ tx2W.quantidade_efetiva = 3) ∧
      (Mode.ENTRADA = Mode.SAIDA → tx2W.acao = "SAIDA" ∧ tx2W.sinal = -1 ∧
        tx2W.quantidade = 3 ∧ tx2W.quantidade_efetiva = -3) ∧
      (Mode.ENTRADA = Mode.INVENTARIO → tx2W.acao = "AJUSTE")) := by
  have hq : ¬ ((3 : ℚ) ≤ 0) := by norm_num
  have hmem : tx2W ∈
      txsOf (record_movement "u" Mode.ENTRADA "A" 3 true true st2W).2.2 := by
    simp [record_movement, st2W, tx2W, txsOf, hq]
  exact ⟨hmem, C2_sign_rule "u" Mode.ENTRADA "A" 3 true true st2W tx2W hmem⟩

/-- Starting state for the C4 amended-claim witness: item `"A"` carries
theoretical balance 12. -/
def st4W : St := ⟨⟨true, true, [⟨"A", some 12⟩]⟩, [], []⟩

/-- State exhibiting the C4 counterexample: item `"A"` carries the
positive theoretical balance 1e-10, below the reconciliation
epsilon. -/
def st4C : St := ⟨⟨true, true, [⟨"A", some (1 / 10000000000)⟩]⟩, [], []⟩

/-- Counterexample to C4 as stated: the theoretical balance 1e-10 is
positive and a count of 0 is accepted, yet no ADJUST transaction is
produced, because |0 − 1e-10| does not exceed the 1e-9 epsilon. -/
theorem C4_counterexample :
    0 < get_saldo_cached st4C.saldos "A" ∧
    (record_movement "u" Mode.INVENTARIO "A" 0 true true st4C).1 =
      Result.recorded ∧
    txsOf (record_movement "u" Mode.INVENTARIO "A" 0 true true st4C).2.2 = [] ∧
    (record_movement "u" Mode.INVENTARIO "A" 0 true true st4C).2.1.transacoes =
      [] := by
  have hmode : ( Mode.INVENTARIO = Mode.ENTRADA ∨
      Mode.INVENTARIO = Mode.SAIDA) = False := by simp
  norm_num [record_movement, get_saldo_cached, read_saldos_df, st4C, normId,
    eps, pyabs, txsOf, hmode]

/-- C4 (amended): a submitted quantity ≤ 0 is rejected before any write
exactly when the mode is ENTRADA or SAIDA; in INVENTARIO mode a counted
quantity of 0 is accepted, and when the theoretical balance exceeds the
1e-9 epsilon it produces a negative adjustment equal to the full
theoretical balance (full write-off), leaving the balance at 0. -/
theorem C4_zero_quantity (user item_id : String) (mode : Mode)
    (qtd teorico : ℚ) (b ok : Bool) (st : St)
    (hi : st.saldos.hasItemId = true) (hs : st.saldos.hasSaldo = true)
    (hn : normId item_id = item_id)
    (hteo : get_saldo_cached st.saldos item_id = teorico) :
    (qtd ≤ 0 → (mode = Mode.ENTRADA ∨ mode = Mode.SAIDA) →
      record_movement user mode item_id qtd b ok st =
        (Result.rejected "Quantidade precisa ser maior que zero.", st, [])) ∧
    (record_movement user Mode.INVENTARIO item_id 0 b ok st).1 =
      Result.recorded ∧
    (eps < teorico →
      (record_movement user Mode.INVENTARIO item_id 0 b ok st).2.1.transacoes =
        st.transacoes ++
          [⟨item_id, "AJUSTE", -1, teorico, -teorico, user,
            ajusteObs 0 teorico⟩] ∧
      get_saldo_cached
        (record_movement user Mode.INVENTARIO item_id 0 b ok st).2.1.saldos
        item_id = 0) := by
  subst hteo
  refine ⟨?_, ?_, ?_⟩
  · intro hq hm
    simp only [record_movement]
    rw [if_pos ⟨hm, hq⟩]
  · by_cases hd : eps <
        pyabs (-(get_saldo_cached st.saldos item_id)) <;>
      cases ok <;> simp [record_movement, hd]
  · intro hteps
    have heps : (0 : ℚ) < eps := by norm_num [eps]
    have hg0 : (0 : ℚ) < get_saldo_cached st.saldos item_id :=
      lt_trans heps hteps
    have habs : pyabs ((0 : ℚ) - get_saldo_cached st.saldos item_id) =
        get_saldo_cached st.saldos item_id := by
      simp only [pyabs]
      rw [if_pos (by linarith)]
      ring
    have hd : eps < pyabs ((0 : ℚ) - get_saldo_cached st.saldos item_id) := by
      rw [habs]
      exact hteps
    obtain ⟨htx, hbal⟩ :=
      inventario_adjust_state user item_id 0 b ok st hi hs hn hd
    refine ⟨?_, hbal⟩
    rw [htx, if_neg (by linarith :
        ¬ (0 : ℚ) < 0 - get_saldo_cached st.saldos item_id), habs, zero_sub]

/-- Witness for the amended C4 at quantity 0, theoretical balance 12. -/
theorem C4_zero_quantity_witness :
    record_movement "u" Mode.ENTRADA "A" 0 true true st4W =
      (Result.rejected "Quantidade precisa ser maior que zero.", st4W, []) ∧
    (record_movement "u" Mode.INVENTARIO "A" 0 true true st4W).1 =
      Result.recorded ∧
    ((record_movement "u" Mode.INVENTARIO "A" 0 true true st4W).2.1.transacoes =
      st4W.transacoes ++
        [⟨"A", "AJUSTE", -1, 12, -12, "u", ajusteObs 0 12⟩] ∧
      get_saldo_cached
        (record_movement "u" Mode.INVENTARIO "A" 0 true true st4W).2.1.saldos
        "A" = 0) := by
  obtain ⟨h1, h2, h3⟩ := C4_zero_quantity "u" "A" Mode.ENTRADA 0 12 true true
    st4W rfl rfl (by decide) (by decide)
  exact ⟨h1 le_rfl (Or.inl rfl), h2, h3 (by norm_num [eps])⟩

/-- When the quantity is positive and the negative-balance guard does
not fire, an OUT submission records the movement: transaction append
followed by the balance write of `saldo − qtd`. -/
lemma saida_record (user item_id : String) (qtd : ℚ) (b ok : Bool) (st : St)
    (hq : 0 < qtd)
    (hok : ¬ (get_saldo_cached st.saldos item_id - qtd < 0 ∧
      needs_confirm Mode.SAIDA (get_saldo_cached st.saldos item_id) qtd b =
        false)) :
    record_movement user Mode.SAIDA item_id qtd b ok st =
      (Result.recorded,
        ⟨(apply_delta st.saldos item_id (-qtd)).2,
         st.transacoes ++ [⟨item_id, "SAIDA", -1, qtd, -qtd, user, ""⟩],
         st.contagens⟩,
        [Ev.txAppend ⟨item_id, "SAIDA", -1, qtd, -qtd, user, ""⟩,
         Ev.saldoWrite item_id (apply_delta st.saldos item_id (-qtd)).1]) := by
  simp only [record_movement]
  rw [if_neg (fun h => absurd h.2 (not_le.mpr hq)),
    if_neg (fun h => hok h.2),
    if_neg (by simp : ¬ Mode.SAIDA = Mode.INVENTARIO)]
  simp

/-- C5: an OUT submission whose projected balance is negative is
rejected with no write unless the confirmation checkbox is set; once
confirmed it is recorded and the balance becomes the negative projected
value; an OUT submission whose projected balance is ≥ 0 is recorded
regardless of the checkbox. -/
theorem C5_negative_balance_confirm (user item_id : String)
    (qtd saldo : ℚ) (b ok : Bool) (st : St)
    (hi : st.saldos.hasItemId = true) (hs : st.saldos.hasSaldo = true)
    (hn : normId item_id = item_id)
    (hsal : get_saldo_cached st.saldos item_id = saldo) (hq : 0 < qtd) :
    (saldo - qtd < 0 →
      record_movement user Mode.SAIDA item_id qtd false ok st =
        (Result.rejected "Marque a confirmação para permitir saldo negativo.",
          st, []) ∧
      (record_movement user Mode.SAIDA item_id qtd true ok st).1 =
        Result.recorded ∧
      get_saldo_cached
        (record_movement user Mode.SAIDA item_id qtd true ok st).2.1.saldos
        item_id = saldo - qtd) ∧
    (0 ≤ saldo - qtd →
      (record_movement user Mode.SAIDA item_id qtd b ok st).1 =
        Result.recorded ∧
      get_saldo_cached
        (record_movement user Mode.SAIDA item_id qtd b ok st).2.1.saldos
        item_id = saldo - qtd) := by
  subst hsal
  have key := (apply_delta_spec st.saldos hi hs item_id hn (-qtd)).2
  constructor
  · intro hneg
    refine ⟨?_, ?_, ?_⟩
    · simp only [record_movement]
      rw [if_neg (fun h => absurd h.2 (not_le.mpr hq)),
        if_pos (by exact ⟨by trivial, hneg, by simp [needs_confirm, hneg]⟩)]
    · rw [saida_record user item_id qtd true ok st hq
        (by simp [needs_confirm])]
    · rw [saida_record user item_id qtd true ok st hq
        (by simp [needs_confirm])]
      show get_saldo_cached (apply_delta st.saldos item_id (-qtd)).2 item_id = _
      rw [key]
      ring
  · intro hpos
    have hok : ¬ (get_saldo_cached st.saldos item_id - qtd < 0 ∧
        needs_confirm Mode.SAIDA (get_saldo_cached st.saldos item_id) qtd b =
          false) := fun h => absurd h.1 (not_lt.mpr hpos)
    refine ⟨?_, ?_⟩
    · rw [saida_record user item_id qtd b ok st hq hok]
    · rw [saida_record user item_id qtd b ok st hq hok]
      show get_saldo_cached (apply_delta st.saldos item_id (-qtd)).2 item_id = _
      rw [key]
      ring

/-- Starting state for the C5 witness: item `"A"` carries balance 7. -/
def st5W : St := ⟨⟨true, true, [⟨"A", some 7⟩]⟩, [], []⟩

/-- Witness for C5 at balance 7, OUT quantity 10: rejected without the
checkbox, recorded as balance −3 with it. -/
theorem C5_negative_balance_confirm_witness :
    (record_movement "u" Mode.SAIDA "A" 10 false true st5W =
      (Result.rejected "Marque a confirmação para permitir saldo negativo.",
        st5W, []) ∧
      (record_movement "u" Mode.SAIDA "A" 10 true true st5W).1 =
        Result.recorded ∧
      get_saldo_cached
        (record_movement "u" Mode.SAIDA "A" 10 true true st5W).2.1.saldos
        "A" = 7 - 10) ∧
    ((7 : ℚ) - 10 < 0) := by
  obtain ⟨h1, _⟩ := C5_negative_balance_confirm "u" "A" 10 7 false true st5W
    rfl rfl (by decide) (by decide) (by norm_num)
  exact ⟨h1 (by norm_num), by norm_num⟩

/-- Number of attempts `retryAux` invokes is at most the attempts
remaining. -/
lemma with_retry_calls_le (E A : Type) (fn : Nat → Except E A) (base : ℚ)
    (tries : Nat) :
    (with_retry fn base tries).calls.length ≤ tries :=
  retryAux_calls_len fn base tries 0 none

/-- C6: `with_retry` makes at most 3 attempts with the delay doubling
from one failed attempt to the next; the value of the first successful
attempt is returned (so the wrapped side effect runs exactly once on a
fail-fail-succeed trace — no duplicate writes); and only when all three
attempts fail is the last exception raised. -/
theorem C6_with_retry (E A : Type) (fn : Nat → Except E A) (base : ℚ) :
    (with_retry fn base 3).calls.length ≤ 3 ∧
    (∀ k x y, (with_retry fn base 3).sleeps.get? k = some x →
      (with_retry fn base 3).sleeps.get? (k + 1) = some y → y = 2 * x) ∧
    (∀ a, fn 0 = Except.ok a →
      (with_retry fn base 3).result = Except.ok a ∧
      (with_retry fn base 3).calls = [0] ∧
      successCalls fn (with_retry fn base 3) = 1) ∧
    (∀ e0 e1 a, fn 0 = Except.error e0 → fn 1 = Except.error e1 →
      fn 2 = Except.ok a →
      (with_retry fn base 3).result = Except.ok a ∧
      successCalls fn (with_retry fn base 3) = 1 ∧
      (with_retry fn base 3).sleeps = [base, base * 2]) ∧
    (∀ e0 e1 e2, fn 0 = Except.error e0 → fn 1 = Except.error e1 →
      fn 2 = Except.error e2 →
      (with_retry fn base 3).result = Except.error (some e2) ∧
      successCalls fn (with_retry fn base 3) = 0) := by
  refine ⟨with_retry_calls_le E A fn base 3, ?_, ?_, ?_, ?_⟩
  · intro k x y hx hy
    have h1 := retryAux_sleeps_get fn base 3 0 none k x hx
    have h2 := retryAux_sleeps_get fn base 3 0 none (k + 1) y hy
    rw [h1, h2, Nat.zero_add, Nat.zero_add, pow_succ]
    ring
  · intro a h0
    simp [with_retry, retryAux, h0, successCalls, exceptOk]
  · intro e0 e1 a h0 h1 h2
    simp [with_retry, retryAux, h0, h1, h2, successCalls, exceptOk]
  · intro e0 e1 e2 h0 h1 h2
    simp [with_retry, retryAux, h0, h1, h2, successCalls, exceptOk]

/-- The attempt outcomes for the C6 witness: the backing store fails on
the first two attempts and succeeds on the third. -/
def fn6W : Nat → Except String Nat :=
  fun i => if i = 2 then Except.ok 7 else Except.error "rate limited"

/-- Witness for C6 on a fail-fail-succeed callable. -/
theorem C6_with_retry_witness :
    (with_retry fn6W (7 / 10) 3).calls.length ≤ 3 ∧
    ((with_retry fn6W (7 / 10) 3).result = Except.ok 7 ∧
      successCalls fn6W (with_retry fn6W (7 / 10) 3) = 1 ∧
      (with_retry fn6W (7 / 10) 3).sleeps = [7 / 10, 7 / 10 * 2]) :=
  ⟨(C6_with_retry String Nat fn6W (7 / 10)).1,
   (C6_with_retry String Nat fn6W (7 / 10)).2.2.2.1 "rate limited"
     "rate limited" 7 rfl rfl rfl⟩

end Estoque
